import Mathlib

/-!
Shallow embedding of the EventHub repository's data-consistency and
access-control core.

The embedded code comes from:
  * the SQL schema and row-level-security policies (tables profiles,
    events, rsvps, reviews; policies; CHECK and UNIQUE constraints),
  * the EventDetails page (handleRsvp, handleSubmitReview, reviewSchema,
    avgRating, hasEnded and the review-form gating),
  * the CreateEvent page (eventSchema, handleSubmit),
  * the Index page (fetchEvents, filteredEvents).

Modelling choices: UUIDs are modelled as natural numbers, TIMESTAMPTZ
values as integers, JS numbers that carry ratings as rationals (the zod
schema does not force integrality), and the stored state as lists of
rows.  Mutating handlers return a result tag together with the new state
so that "state unchanged on failure" is a provable statement rather than
a definitional one.
-/

abbrev UserId := Nat
abbrev EventId := Nat
abbrev Time := Int

/-- Whitespace recognised by the JS string trim used in the zod schemas;
the ASCII whitespace characters suffice for this model. -/
def isSpaceChar (c : Char) : Bool :=
  c == ' ' || c == '\t' || c == '\n' || c == '\r'

/-- Leading and trailing whitespace removal on a character list. -/
def trimChars (l : List Char) : List Char :=
  ((l.dropWhile isSpaceChar).reverse.dropWhile isSpaceChar).reverse

/-- Model of JS String.prototype.trim, as invoked by z.string().trim(). -/
def strTrim (s : String) : String :=
  String.mk (trimChars s.data)

/-- Model of JS String.prototype.toLowerCase. -/
def strLower (s : String) : String :=
  String.mk (s.data.map Char.toLower)

/-- Status enum of the rsvps table: ENUM ('going', 'maybe', 'not_going'). -/
inductive RsvpStatus
  | going
  | maybe
  | not_going
deriving DecidableEq, Repr

/-- Row of the events table.  The columns created_at/updated_at are not
needed by any claim and are omitted. -/
structure Event where
  id : EventId
  title : String
  description : String
  organizer_id : UserId
  location : String
  start_time : Time
  end_time : Time
  is_public : Bool
deriving DecidableEq, Repr

/-- Row of the rsvps table. -/
structure Rsvp where
  id : Nat
  event_id : EventId
  user_id : UserId
  status : RsvpStatus
deriving DecidableEq, Repr

/-- Row of the reviews table.  The rating column is INTEGER in SQL, but the
value that reaches the insert is a JS number validated only by
z.number().min(1).max(5), so it is modelled as a rational. -/
structure Review where
  id : Nat
  event_id : EventId
  user_id : UserId
  rating : ℚ
  comment : String
deriving DecidableEq, Repr

/-- The stored state: the three row sets the claims are about. -/
structure DB where
  events : List Event
  rsvps : List Rsvp
  reviews : List Review
deriving DecidableEq, Repr

/-! Row-level-security SELECT policies, read off the CREATE POLICY
statements.  auth.uid() is the optional caller identity; a NULL uid makes
the equality comparison false. -/

/-- Policy "Public events are viewable by everyone":
USING (is_public = true OR organizer_id = auth.uid()). -/
def canSelectEvent (uid : Option UserId) (e : Event) : Bool :=
  e.is_public || uid == some e.organizer_id

/-- Policy "RSVPs are viewable by everyone": USING (true). -/
def canSelectRsvp (_uid : Option UserId) (_r : Rsvp) : Bool :=
  true

/-- Policy "Reviews are viewable by everyone": USING (true). -/
def canSelectReview (_uid : Option UserId) (_r : Review) : Bool :=
  true

/-- Rows of events a given identity can read under RLS. -/
def visibleEvents (uid : Option UserId) (db : DB) : List Event :=
  db.events.filter (canSelectEvent uid)

/-- Rows of rsvps a given identity can read under RLS. -/
def visibleRsvps (uid : Option UserId) (db : DB) : List Rsvp :=
  db.rsvps.filter (canSelectRsvp uid)

/-- Rows of reviews a given identity can read under RLS. -/
def visibleReviews (uid : Option UserId) (db : DB) : List Review :=
  db.reviews.filter (canSelectReview uid)

/-! Event creation: eventSchema and handleSubmit of CreateEventContent. -/

/-- Form data of the create-event form.  start_time/end_time arrive as
datetime-local strings and are modelled as already-parsed instants; the
schema's min(1) on them only demands a non-empty string. -/
structure CreateEventInput where
  title : String
  description : String
  location : String
  start_time : Time
  end_time : Time
deriving DecidableEq, Repr

/-- eventSchema: title trimmed, 3..200 chars; description trimmed,
10..2000 chars; location trimmed, 3..500 chars. -/
def eventSchemaValid (i : CreateEventInput) : Bool :=
  3 ≤ (strTrim i.title).length && (strTrim i.title).length ≤ 200 &&
  10 ≤ (strTrim i.description).length && (strTrim i.description).length ≤ 2000 &&
  3 ≤ (strTrim i.location).length && (strTrim i.location).length ≤ 500

/-- Outcome tags of handleSubmit in CreateEventContent.  validationError is
the ZodError toast; invalidTimeRange is the "End time must be after start
time" rejection, mirrored in SQL by CONSTRAINT valid_time_range. -/
inductive CreateEventResult
  | created
  | notSignedIn
  | validationError
  | invalidTimeRange
deriving DecidableEq, Repr

/-- handleSubmit of CreateEventContent: bail out when not signed in, parse
eventSchema (ZodError first), then reject end_time <= start_time, then
insert the row with organizer_id := the caller. -/
def handleCreateEvent (user : Option UserId) (db : DB) (i : CreateEventInput)
    (isPublic : Bool) (newId : EventId) : CreateEventResult × DB :=
  match user with
  | none => (.notSignedIn, db)
  | some uid =>
    if ¬ eventSchemaValid i then (.validationError, db)
    else if i.end_time ≤ i.start_time then (.invalidTimeRange, db)
    else (.created,
      { db with events := db.events ++
          [{ id := newId, title := strTrim i.title, description := strTrim i.description,
             organizer_id := uid, location := strTrim i.location,
             start_time := i.start_time, end_time := i.end_time,
             is_public := isPublic }] })

/-! RSVP upsert: handleRsvp of EventDetails, with the UNIQUE(event_id,
user_id) constraint of the rsvps table. -/

/-- The .eq("event_id", id).eq("user_id", user.id) match used by
handleRsvp, and the column pair of UNIQUE(event_id, user_id). -/
def rsvpMatches (eid : EventId) (uid : UserId) (r : Rsvp) : Bool :=
  r.event_id == eid && r.user_id == uid

/-- Outcome tags of handleRsvp. -/
inductive RsvpResult
  | saved
  | notSignedIn
deriving DecidableEq, Repr

/-- handleRsvp: redirect when not signed in; when a row for this
(event_id, user_id) exists (the fetched userRsvp), update its status,
else insert a fresh row. -/
def handleRsvp (user : Option UserId) (db : DB) (eid : EventId)
    (status : RsvpStatus) (newId : Nat) : RsvpResult × DB :=
  match user with
  | none => (.notSignedIn, db)
  | some uid =>
    if db.rsvps.any (rsvpMatches eid uid) then
      (.saved, { db with rsvps := db.rsvps.map (fun r =>
        if rsvpMatches eid uid r then { r with status := status } else r) })
    else
      (.saved, { db with rsvps := db.rsvps ++
        [{ id := newId, event_id := eid, user_id := uid, status := status }] })

/-! Review submission: reviewSchema and handleSubmitReview of
EventDetails, with the UNIQUE(event_id, user_id) constraint of the
reviews table surfacing as the "duplicate" error branch. -/

/-- reviewSchema: rating is z.number().min(1).max(5) (no .int()); comment
is z.string().trim().min(10).max(1000), checked after trimming. -/
def reviewSchemaValid (rating : ℚ) (comment : String) : Bool :=
  1 ≤ rating && rating ≤ 5 &&
  10 ≤ (strTrim comment).length && (strTrim comment).length ≤ 1000

/-- The UNIQUE(event_id, user_id) column pair on reviews. -/
def reviewMatches (eid : EventId) (uid : UserId) (r : Review) : Bool :=
  r.event_id == eid && r.user_id == uid

/-- Outcome tags of handleSubmitReview.  duplicateReview is the branch
where the insert fails with a "duplicate" message from the UNIQUE
constraint; there is no end-time-related outcome on this path. -/
inductive SubmitReviewResult
  | submitted
  | notSignedIn
  | validationError
  | duplicateReview
deriving DecidableEq, Repr

/-- handleSubmitReview: redirect when not signed in, parse reviewSchema,
then insert (event_id, user_id, validated rating, validated comment);
the UNIQUE constraint rejects a second review for the same pair.  No
clock or end_time is consulted anywhere on this path. -/
def handleSubmitReview (user : Option UserId) (db : DB) (eid : EventId)
    (rating : ℚ) (comment : String) (newId : Nat) : SubmitReviewResult × DB :=
  match user with
  | none => (.notSignedIn, db)
  | some uid =>
    if ¬ reviewSchemaValid rating comment then (.validationError, db)
    else if db.reviews.any (reviewMatches eid uid) then (.duplicateReview, db)
    else (.submitted,
      { db with reviews := db.reviews ++
          [{ id := newId, event_id := eid, user_id := uid,
             rating := rating, comment := strTrim comment }] })

/-! Read paths of EventDetails and Index. -/

/-- hasEnded in EventDetails: new Date(event.end_time) < new Date(). -/
def hasEnded (e : Event) (now : Time) : Bool :=
  e.end_time < now

/-- The render condition of the review form in EventDetails:
user && hasEnded && the user has no review among event.reviews yet. -/
def showReviewForm (user : Option UserId) (e : Event) (now : Time)
    (eventReviews : List Review) : Bool :=
  user.isSome && hasEnded e now &&
  !(eventReviews.any (fun r => some r.user_id == user))

/-- Result tags of fetchEvent's .single() call: exactly one visible row
with the id, or the generic no-rows error.  The type has no constructor
that distinguishes a hidden row from a missing one. -/
inductive FetchEventResult
  | found (e : Event)
  | noRows
  | manyRows
deriving DecidableEq, Repr

/-- fetchEvent of EventDetails: select the events row with the given id,
as filtered by RLS, through .single(). -/
def fetchEvent (uid : Option UserId) (db : DB) (eid : EventId) : FetchEventResult :=
  match (visibleEvents uid db).filter (fun e => e.id == eid) with
  | [] => .noRows
  | [e] => .found e
  | _ => .manyRows

/-- Comparison used by .order("start_time", ascending). -/
def startTimeLE (a b : Event) : Prop :=
  a.start_time ≤ b.start_time

instance : DecidableRel startTimeLE :=
  fun a b => inferInstanceAs (Decidable (a.start_time ≤ b.start_time))

instance : IsTotal Event startTimeLE :=
  ⟨fun a b => le_total a.start_time b.start_time⟩

instance : IsTrans Event startTimeLE :=
  ⟨fun _ _ _ h₁ h₂ => le_trans h₁ h₂⟩

/-- fetchEvents of Index: the events visible under RLS, narrowed by
.eq("is_public", true) and .gte("start_time", now), ordered ascending by
start_time. -/
def fetchEvents (uid : Option UserId) (db : DB) (now : Time) : List Event :=
  List.insertionSort startTimeLE
    ((visibleEvents uid db).filter (fun e => e.is_public && now ≤ e.start_time))

/-- Character-list core of the JS String.prototype.includes check. -/
def includesAux (needle : List Char) : List Char → Bool
  | [] => needle.isEmpty
  | c :: t => needle.isPrefixOf (c :: t) || includesAux needle t

/-- s.toLowerCase().includes(q.toLowerCase()). -/
def strIncludes (s q : String) : Bool :=
  includesAux (strLower q).data (strLower s).data

/-- The search predicate of filteredEvents in Index: case-insensitive
substring match on title, description or location. -/
def matchesQuery (q : String) (e : Event) : Bool :=
  strIncludes e.title q || strIncludes e.description q || strIncludes e.location q

/-- filteredEvents of Index: events.filter(matchesQuery). -/
def filteredEvents (q : String) (events : List Event) : List Event :=
  events.filter (matchesQuery q)

/-! Aggregation. -/

/-- JS Number.prototype.toFixed(1) on the (always non-negative) mean:
round half away from zero to one decimal place; on non-negative input
this agrees with rounding half up. -/
def toFixed1 (x : ℚ) : ℚ :=
  ((round (x * 10) : ℤ) : ℚ) / 10

/-- avgRating of EventDetails:
reviews.length > 0 ? (reviews.reduce((sum, r) => sum + r.rating, 0) /
reviews.length).toFixed(1) : "N/A"; none models the "N/A" sentinel. -/
def avgRating (reviews : List Review) : Option ℚ :=
  if 0 < reviews.length then
    some (toFixed1 ((reviews.foldl (fun s r => s + r.rating) 0) / (reviews.length : ℚ)))
  else none

/-- Modelled from the spec: the trends(start_date, end_date) aggregation
of §4.4/§6 is implemented in PL/pgSQL database routines that are not
present under src/ (the README mentions them; only the schema and pages
are in the repository).  Following the spec's words: one bucket per day
of the inclusive range [start_date, end_date], ascending by bucket date,
each bucket counting the entities whose relevant timestamp falls in that
day, days with zero activity included with count 0.  Dates are modelled
as day numbers. -/
def trends (start_date end_date : Nat) (eventDays : List Nat) : List (Nat × Nat) :=
  (List.range (end_date + 1 - start_date)).map
    (fun i => (start_date + i, eventDays.countP (fun d => d == start_date + i)))

/-- Uniqueness invariant backed by UNIQUE(event_id, user_id) on rsvps:
no two distinct rows share the column pair. -/
def rsvpsUniquePerPair (l : List Rsvp) : Prop :=
  l.Pairwise (fun a b => a.event_id ≠ b.event_id ∨ a.user_id ≠ b.user_id)

/-- Uniqueness invariant backed by UNIQUE(event_id, user_id) on reviews. -/
def reviewsUniquePerPair (l : List Review) : Prop :=
  l.Pairwise (fun a b => a.event_id ≠ b.event_id ∨ a.user_id ≠ b.user_id)

instance (l : List Rsvp) : Decidable (rsvpsUniquePerPair l) :=
  inferInstanceAs (Decidable (l.Pairwise _))

instance (l : List Review) : Decidable (reviewsUniquePerPair l) :=
  inferInstanceAs (Decidable (l.Pairwise _))

/-! Helper lemmas. -/

lemma updStatus_preserves_event_id (eid : EventId) (uid : UserId) (st : RsvpStatus) (r : Rsvp) :
    ((if rsvpMatches eid uid r then { r with status := st } else r) : Rsvp).event_id = r.event_id := by
  split <;> rfl

lemma updStatus_preserves_user_id (eid : EventId) (uid : UserId) (st : RsvpStatus) (r : Rsvp) :
    ((if rsvpMatches eid uid r then { r with status := st } else r) : Rsvp).user_id = r.user_id := by
  split <;> rfl

lemma rsvpMatches_iff (eid : EventId) (uid : UserId) (r : Rsvp) :
    rsvpMatches eid uid r = true ↔ (r.event_id = eid ∧ r.user_id = uid) := by
  simp [rsvpMatches]

lemma reviewMatches_iff (eid : EventId) (uid : UserId) (r : Review) :
    reviewMatches eid uid r = true ↔ (r.event_id = eid ∧ r.user_id = uid) := by
  simp [reviewMatches]

/-- C2 counterexample: a private Event's RSVP and Review rows are fully
visible to an unrelated identity.  Event 1 is private and organised by
user 10; user 20's RSVP and review on it are readable by user 30, who may
not even read the Event row itself. -/
theorem private_event_rsvps_and_reviews_visible_to_stranger :
    (let e : Event := { id := 1, title := "Offsite", description := "Internal",
                        organizer_id := 10, location := "HQ",
                        start_time := 0, end_time := 1, is_public := false };
     let r : Rsvp := { id := 7, event_id := 1, user_id := 20, status := .going };
     let rv : Review := { id := 8, event_id := 1, user_id := 20, rating := 5,
                          comment := "wonderful gathering" };
     let db : DB := { events := [e], rsvps := [r], reviews := [rv] };
     canSelectEvent (some 30) e = false ∧
     (some 30 : Option UserId) ≠ some e.organizer_id ∧
     r ∈ visibleRsvps (some 30) db ∧
     rv ∈ visibleReviews (some 30) db) := by
  refine ⟨by decide, by decide, ?_, ?_⟩ <;>
    simp [visibleRsvps, visibleReviews, canSelectRsvp, canSelectReview]

/-- C2 (amended): the SELECT policies on rsvps and reviews are
unconditionally true, so every identity sees every RSVP and Review row,
whatever the visibility of the owning Event; only the events table itself
restricts SELECT to public rows or the organizer. -/
theorem rsvp_review_select_open_to_everyone (uid : Option UserId) (db : DB) :
    visibleRsvps uid db = db.rsvps ∧
    visibleReviews uid db = db.reviews ∧
    (∀ e, e ∈ visibleEvents uid db ↔
      (e ∈ db.events ∧ (e.is_public = true ∨ uid = some e.organizer_id))) := by
  refine ⟨?_, ?_, ?_⟩
  · simp [visibleRsvps, canSelectRsvp]
  · simp [visibleReviews, canSelectReview]
  · intro e
    simp [visibleEvents, List.mem_filter, canSelectEvent]

/-- C4: handleRsvp keeps the UNIQUE(event_id, user_id) invariant of the
rsvps table, and a submission by a user who already has a row for the
event updates that row's status in place: the row count is unchanged and
the row for the pair carries the new status. -/
theorem rsvp_upsert_one_row_per_pair (db : DB) (user : Option UserId)
    (eid : EventId) (st : RsvpStatus) (nid : Nat)
    (hinv : rsvpsUniquePerPair db.rsvps) :
    rsvpsUniquePerPair ((handleRsvp user db eid st nid).2).rsvps ∧
    (∀ uid, user = some uid → db.rsvps.any (rsvpMatches eid uid) = true →
      ((handleRsvp user db eid st nid).2).rsvps.length = db.rsvps.length ∧
      ∀ r ∈ ((handleRsvp user db eid st nid).2).rsvps,
        rsvpMatches eid uid r = true → r.status = st) := by
  match user with
  | none =>
    refine ⟨hinv, ?_⟩
    intro uid h
    exact absurd h (by simp)
  | some uid₀ =>
    by_cases h : db.rsvps.any (rsvpMatches eid uid₀) = true
    · have hres : (handleRsvp (some uid₀) db eid st nid).2.rsvps
          = db.rsvps.map (fun r =>
              if rsvpMatches eid uid₀ r then { r with status := st } else r) := by
        simp [handleRsvp, h]
      refine ⟨?_, ?_⟩
      · rw [hres, rsvpsUniquePerPair, List.pairwise_map]
        refine hinv.imp ?_
        intro a b hab
        rwa [updStatus_preserves_event_id, updStatus_preserves_event_id,
          updStatus_preserves_user_id, updStatus_preserves_user_id]
      · rintro uid heq hany
        injection heq with heq
        subst heq
        refine ⟨by rw [hres]; exact List.length_map _ _, ?_⟩
        intro r hr hmatch
        rw [hres] at hr
        obtain ⟨r₀, hr₀, rfl⟩ := List.mem_map.mp hr
        by_cases hm : rsvpMatches eid uid₀ r₀
        · simp [hm]
        · rw [if_neg hm] at hmatch
          exact absurd hmatch hm
    · have hres : (handleRsvp (some uid₀) db eid st nid).2.rsvps
          = db.rsvps ++ [{ id := nid, event_id := eid, user_id := uid₀, status := st }] := by
        simp [handleRsvp, h]
      refine ⟨?_, ?_⟩
      · rw [hres, rsvpsUniquePerPair, List.pairwise_append]
        refine ⟨hinv, List.pairwise_singleton _ _, ?_⟩
        intro a ha b hb
        have hnm : ¬ rsvpMatches eid uid₀ a = true :=
          (List.any_eq_false.mp (Bool.not_eq_true _ ▸ eq_false_of_ne_true h)) a ha
        rw [List.mem_singleton] at hb
        subst hb
        rw [rsvpMatches_iff] at hnm
        by_cases he : a.event_id = eid
        · exact Or.inr (fun hu => hnm ⟨he, hu⟩)
        · exact Or.inl he
      · rintro uid heq hany
        injection heq with heq
        subst heq
        exact absurd hany h

/-- C4 witness: a store holding one RSVP (event 1, user 5, maybe) after a
second submission by user 5 still has one row per pair and exactly one
row in total. -/
theorem rsvp_upsert_one_row_per_pair_witness :
    rsvpsUniquePerPair ((handleRsvp (some 5)
      { events := [], rsvps := [{ id := 1, event_id := 1, user_id := 5, status := .maybe }],
        reviews := [] } 1 .going 9).2).rsvps ∧
    ((handleRsvp (some 5)
      { events := [], rsvps := [{ id := 1, event_id := 1, user_id := 5, status := .maybe }],
        reviews := [] } 1 .going 9).2).rsvps.length = 1 := by
  have h := rsvp_upsert_one_row_per_pair
    { events := [], rsvps := [{ id := 1, event_id := 1, user_id := 5, status := .maybe }],
      reviews := [] } (some 5) 1 .going 9 (by decide)
  exact ⟨h.1, (h.2 5 rfl (by decide)).1⟩

/-- C7: handleSubmitReview keeps the UNIQUE(event_id, user_id) invariant
of the reviews table, and a valid submission for a pair that already has
a Review is rejected as duplicateReview with the state unchanged. -/
theorem review_unique_per_pair_duplicate_rejected (db : DB) (user : Option UserId)
    (eid : EventId) (rating : ℚ) (comment : String) (nid : Nat)
    (hinv : reviewsUniquePerPair db.reviews) :
    reviewsUniquePerPair ((handleSubmitReview user db eid rating comment nid).2).reviews ∧
    (∀ uid, user = some uid → reviewSchemaValid rating comment = true →
      db.reviews.any (reviewMatches eid uid) = true →
      handleSubmitReview user db eid rating comment nid = (.duplicateReview, db)) := by
  constructor
  · match user with
    | none => exact hinv
    | some uid₀ =>
      by_cases hv : reviewSchemaValid rating comment = true
      · by_cases h : db.reviews.any (reviewMatches eid uid₀) = true
        · simpa [handleSubmitReview, hv, h] using hinv
        · have hres : (handleSubmitReview (some uid₀) db eid rating comment nid).2.reviews
              = db.reviews ++ [{ id := nid, event_id := eid, user_id := uid₀,
                                 rating := rating, comment := strTrim comment }] := by
            simp [handleSubmitReview, hv, h]
          rw [hres, reviewsUniquePerPair, List.pairwise_append]
          refine ⟨hinv, List.pairwise_singleton _ _, ?_⟩
          intro a ha b hb
          have hnm : ¬ reviewMatches eid uid₀ a = true :=
            (List.any_eq_false.mp (Bool.not_eq_true _ ▸ eq_false_of_ne_true h)) a ha
          rw [List.mem_singleton] at hb
          subst hb
          rw [reviewMatches_iff] at hnm
          by_cases he : a.event_id = eid
          · exact Or.inr (fun hu => hnm ⟨he, hu⟩)
          · exact Or.inl he
      · simpa [handleSubmitReview, hv] using hinv
  · rintro uid heq hv hdup
    subst heq
    simp [handleSubmitReview, hv, hdup]

/-- C7 witness: with a stored review by user 5 on event 1, a second valid
submission by user 5 is rejected as a duplicate and the state is
unchanged; the pair invariant still holds. -/
theorem review_unique_per_pair_duplicate_rejected_witness :
    reviewsUniquePerPair ((handleSubmitReview (some 5)
      { events := [], rsvps := [],
        reviews := [{ id := 1, event_id := 1, user_id := 5, rating := 4,
                      comment := "lovely evening out" }] } 1 3 "second try review" 9).2).reviews ∧
    handleSubmitReview (some 5)
      { events := [], rsvps := [],
        reviews := [{ id := 1, event_id := 1, user_id := 5, rating := 4,
                      comment := "lovely evening out" }] } 1 3 "second try review" 9
      = (.duplicateReview,
         { events := [], rsvps := [],
           reviews := [{ id := 1, event_id := 1, user_id := 5, rating := 4,
                         comment := "lovely evening out" }] }) := by
  have h := review_unique_per_pair_duplicate_rejected
    { events := [], rsvps := [],
      reviews := [{ id := 1, event_id := 1, user_id := 5, rating := 4,
                    comment := "lovely evening out" }] } (some 5) 1 3 "second try review" 9
    (by simp [reviewsUniquePerPair])
  have hv : reviewSchemaValid 3 "second try review" = true := by
    simp only [reviewSchemaValid, Bool.and_eq_true, decide_eq_true_eq]
    refine ⟨⟨⟨by norm_num, by norm_num⟩, by decide⟩, by decide⟩
  exact ⟨h.1, h.2 5 rfl hv (by decide)⟩

/-- C1 counterexample: a valid review submitted for event 1 whose
end_time (100) has not passed at submission time (now = 0) is accepted
and stored; nothing on the write path rejects it, and the result type of
the path has no ineligibility outcome at all. -/
theorem review_for_unfinished_event_is_stored :
    hasEnded { id := 1, title := "Fair", description := "Village fair",
               organizer_id := 2, location := "Green", start_time := 0,
               end_time := 100, is_public := true } 0 = false ∧
    (handleSubmitReview (some 5)
      { events := [{ id := 1, title := "Fair", description := "Village fair",
                     organizer_id := 2, location := "Green", start_time := 0,
                     end_time := 100, is_public := true }],
        rsvps := [], reviews := [] } 1 4 "really great event" 9).1 = .submitted ∧
    ((handleSubmitReview (some 5)
      { events := [{ id := 1, title := "Fair", description := "Village fair",
                     organizer_id := 2, location := "Green", start_time := 0,
                     end_time := 100, is_public := true }],
        rsvps := [], reviews := [] } 1 4 "really great event" 9).2).reviews.length = 1 := by
  have hv : reviewSchemaValid 4 "really great event" = true := by
    simp only [reviewSchemaValid, Bool.and_eq_true, decide_eq_true_eq]
    refine ⟨⟨⟨by norm_num, by norm_num⟩, by decide⟩, by decide⟩
  refine ⟨by decide, ?_, ?_⟩ <;> simp [handleSubmitReview, hv]

/-- C1 (amended): the review write path never consults the event's
end_time: any valid, non-duplicate submission by a signed-in user is
accepted and stored whatever the clock says; the review-after-end rule
exists only as a UI gate, since the review form is rendered only when
hasEnded holds. -/
theorem review_eligibility_enforced_only_in_ui (user : Option UserId) (db : DB)
    (eid : EventId) (rating : ℚ) (comment : String) (nid : Nat) (uid : UserId)
    (e : Event) (now : Time) (eventReviews : List Review)
    (hu : user = some uid)
    (hvalid : reviewSchemaValid rating comment = true)
    (hnodup : db.reviews.any (reviewMatches eid uid) = false) :
    (handleSubmitReview user db eid rating comment nid).1 = .submitted ∧
    (handleSubmitReview user db eid rating comment nid).2.reviews
      = db.reviews ++ [{ id := nid, event_id := eid, user_id := uid,
                         rating := rating, comment := strTrim comment }] ∧
    (showReviewForm user e now eventReviews = true → hasEnded e now = true) := by
  subst hu
  refine ⟨?_, ?_, ?_⟩
  · simp [handleSubmitReview, hvalid, hnodup]
  · simp [handleSubmitReview, hvalid, hnodup]
  · intro h
    simp only [showReviewForm, Bool.and_eq_true] at h
    exact h.1.2

/-- C1 witness: instantiation of the amended statement at the concrete
store of the counterexample's shape. -/
theorem review_eligibility_enforced_only_in_ui_witness :
    (handleSubmitReview (some 5)
      { events := [], rsvps := [], reviews := [] } 1 4 "really great event" 9).1 = .submitted ∧
    (showReviewForm (some 5)
      { id := 1, title := "Fair", description := "Village fair",
        organizer_id := 2, location := "Green", start_time := 0,
        end_time := 100, is_public := true } 0 [] = true →
      hasEnded { id := 1, title := "Fair", description := "Village fair",
                 organizer_id := 2, location := "Green", start_time := 0,
                 end_time := 100, is_public := true } 0 = true) := by
  have hv : reviewSchemaValid 4 "really great event" = true := by
    simp only [reviewSchemaValid, Bool.and_eq_true, decide_eq_true_eq]
    refine ⟨⟨⟨by norm_num, by norm_num⟩, by decide⟩, by decide⟩
  have h := review_eligibility_enforced_only_in_ui (some 5)
    { events := [], rsvps := [], reviews := [] } 1 4 "really great event" 9 5
    { id := 1, title := "Fair", description := "Village fair",
      organizer_id := 2, location := "Green", start_time := 0,
      end_time := 100, is_public := true } 0 [] rfl hv (by decide)
  exact ⟨h.1, h.2.2⟩

/-- C3 counterexample: a creation attempt whose end_time equals its
start_time but whose title fails the field schema is rejected with the
generic validation error, not invalidTimeRange, because handleSubmit
parses eventSchema before comparing the two instants. -/
theorem invalid_time_range_masked_by_field_validation :
    ({ title := "ab", description := "a fine description", location := "somewhere",
       start_time := 5, end_time := 5 } : CreateEventInput).end_time ≤
      ({ title := "ab", description := "a fine description", location := "somewhere",
         start_time := 5, end_time := 5 } : CreateEventInput).start_time ∧
    handleCreateEvent (some 1) { events := [], rsvps := [], reviews := [] }
      { title := "ab", description := "a fine description", location := "somewhere",
        start_time := 5, end_time := 5 } true 1
      = (.validationError, { events := [], rsvps := [], reviews := [] }) ∧
    (CreateEventResult.validationError ≠ CreateEventResult.invalidTimeRange) := by
  refine ⟨by decide, by decide, by decide⟩

/-- C3 (amended): an attempt that passes the field schema and has
end_time <= start_time fails with invalidTimeRange; every attempt with
end_time <= start_time leaves the store unchanged; and every stored
Event row satisfies start_time < end_time whenever the prior state did. -/
theorem create_event_time_range_invariant (user : Option UserId) (db : DB)
    (i : CreateEventInput) (isPublic : Bool) (nid : EventId) :
    (∀ uid, user = some uid → eventSchemaValid i = true → i.end_time ≤ i.start_time →
      handleCreateEvent user db i isPublic nid = (.invalidTimeRange, db)) ∧
    (i.end_time ≤ i.start_time → (handleCreateEvent user db i isPublic nid).2 = db) ∧
    ((∀ e ∈ db.events, e.start_time < e.end_time) →
      ∀ e ∈ (handleCreateEvent user db i isPublic nid).2.events,
        e.start_time < e.end_time) := by
  refine ⟨?_, ?_, ?_⟩
  · rintro uid rfl hv ht
    simp [handleCreateEvent, hv, ht]
  · intro ht
    match user with
    | none => rfl
    | some uid =>
      by_cases hv : eventSchemaValid i = true
      · simp [handleCreateEvent, hv, ht]
      · simp [handleCreateEvent, hv]
  · intro hall e he
    match user with
    | none => exact hall e he
    | some uid =>
      by_cases hv : eventSchemaValid i = true
      · by_cases ht : i.end_time ≤ i.start_time
        · simp [handleCreateEvent, hv, ht] at he
          exact hall e he
        · simp [handleCreateEvent, hv, ht] at he
          rcases he with he | he
          · exact hall e he
          · subst he
            exact lt_of_not_le ht
      · simp [handleCreateEvent, hv] at he
        exact hall e he

/-- C3 witness: a well-formed attempt with equal start and end instants
is rejected as invalidTimeRange and stores nothing. -/
theorem create_event_time_range_invariant_witness :
    handleCreateEvent (some 1) { events := [], rsvps := [], reviews := [] }
      { title := "Town hall", description := "A community meetup",
        location := "Main square", start_time := 5, end_time := 5 } true 1
      = (.invalidTimeRange, { events := [], rsvps := [], reviews := [] }) := by
  have h := create_event_time_range_invariant (some 1)
    { events := [], rsvps := [], reviews := [] }
    { title := "Town hall", description := "A community meetup",
      location := "Main square", start_time := 5, end_time := 5 } true 1
  exact h.1 1 rfl (by decide) (by decide)

/-- C5 counterexample: event 1 is private and organised by user 10;
looking it up as user 20 gives exactly the same noRows outcome as
looking up id 99, which matches no row at all, and the result type of
the lookup has no constructor that reports an authorization denial. -/
theorem private_event_lookup_matches_missing_event :
    ({ id := 1, title := "Board meeting", description := "Quarterly numbers",
       organizer_id := 10, location := "Room 4", start_time := 0, end_time := 1,
       is_public := false } : Event).is_public = false ∧
    (some 20 : Option UserId) ≠ some 10 ∧
    fetchEvent (some 20)
      { events := [{ id := 1, title := "Board meeting", description := "Quarterly numbers",
                     organizer_id := 10, location := "Room 4", start_time := 0,
                     end_time := 1, is_public := false }],
        rsvps := [], reviews := [] } 1 = .noRows ∧
    fetchEvent (some 20)
      { events := [{ id := 1, title := "Board meeting", description := "Quarterly numbers",
                     organizer_id := 10, location := "Room 4", start_time := 0,
                     end_time := 1, is_public := false }],
        rsvps := [], reviews := [] } 99 = .noRows := by
  refine ⟨by decide, by decide, by decide, by decide⟩

/-- C5 (amended): a private Event is absent from the public upcoming
listing for every identity, and a direct lookup of it by a non-organizer
yields the same noRows outcome as an id that matches nothing: row-level
security filters silently and no distinct Unauthorized outcome exists. -/
theorem private_event_absent_and_denial_silent (uid : Option UserId) (db : DB)
    (now : Time) (q : String) (e : Event) (missing : EventId)
    (hmem : e ∈ db.events) (hpriv : e.is_public = false)
    (hnotorg : uid ≠ some e.organizer_id)
    (hids : (db.events.map Event.id).Nodup)
    (hmissing : ∀ e₂ ∈ db.events, e₂.id ≠ missing) :
    e ∉ fetchEvents uid db now ∧
    e ∉ filteredEvents q (fetchEvents uid db now) ∧
    fetchEvent uid db e.id = .noRows ∧
    fetchEvent uid db missing = .noRows := by
  have habs : e ∉ fetchEvents uid db now := by
    intro h
    have h₁ := ((List.perm_insertionSort startTimeLE _).mem_iff).mp h
    have h₂ := (List.mem_filter.mp h₁).2
    rw [Bool.and_eq_true] at h₂
    rw [hpriv] at h₂
    exact Bool.false_ne_true h₂.1
  refine ⟨habs, ?_, ?_, ?_⟩
  · intro h
    exact habs (List.mem_filter.mp h).1
  · have hnil : (visibleEvents uid db).filter (fun x => x.id == e.id) = [] := by
      rw [List.filter_eq_nil_iff]
      intro a ha hbeq
      have hav := List.mem_filter.mp ha
      have haid : a.id = e.id := by simpa using hbeq
      have hae : a = e := List.inj_on_of_nodup_map hids hav.1 hmem haid
      subst hae
      have := hav.2
      rw [canSelectEvent, hpriv, Bool.false_or, beq_iff_eq] at this
      exact hnotorg this
    simp [fetchEvent, hnil]
  · have hnil : (visibleEvents uid db).filter (fun x => x.id == missing) = [] := by
      rw [List.filter_eq_nil_iff]
      intro a ha hbeq
      have hav := List.mem_filter.mp ha
      have haid : a.id = missing := by simpa using hbeq
      exact hmissing a hav.1 haid
    simp [fetchEvent, hnil]

/-- C5 witness: instantiation at the concrete one-event store of the
counterexample. -/
theorem private_event_absent_and_denial_silent_witness :
    ({ id := 1, title := "Board meeting", description := "Quarterly numbers",
       organizer_id := 10, location := "Room 4", start_time := 0, end_time := 1,
       is_public := false } : Event) ∉
      fetchEvents (some 20)
        { events := [{ id := 1, title := "Board meeting", description := "Quarterly numbers",
                       organizer_id := 10, location := "Room 4", start_time := 0,
                       end_time := 1, is_public := false }],
          rsvps := [], reviews := [] } 0 ∧
    fetchEvent (some 20)
      { events := [{ id := 1, title := "Board meeting", description := "Quarterly numbers",
                     organizer_id := 10, location := "Room 4", start_time := 0,
                     end_time := 1, is_public := false }],
        rsvps := [], reviews := [] } 1 = .noRows := by
  have h := private_event_absent_and_denial_silent (some 20)
    { events := [{ id := 1, title := "Board meeting", description := "Quarterly numbers",
                   organizer_id := 10, location := "Room 4", start_time := 0,
                   end_time := 1, is_public := false }],
      rsvps := [], reviews := [] } 0 ""
    { id := 1, title := "Board meeting", description := "Quarterly numbers",
      organizer_id := 10, location := "Room 4", start_time := 0, end_time := 1,
      is_public := false } 99
    (by decide) (by decide) (by decide) (by decide) (by decide)
  exact ⟨h.1, h.2.2.1⟩

lemma foldl_add_rating (l : List Review) (a : ℚ) :
    l.foldl (fun s r => s + r.rating) a = a + (l.map Review.rating).sum := by
  induction l generalizing a with
  | nil => simp
  | cons r t ih => simp [ih]; ring

/-- C6: avgRating is the "no data" sentinel exactly on zero reviews and
otherwise the arithmetic mean of the ratings rounded to one decimal
place; on ratings [5,3,4] it is 4.0. -/
theorem avgRating_mean_rounded (reviews : List Review) :
    (reviews = [] → avgRating reviews = none) ∧
    (reviews ≠ [] → avgRating reviews
      = some (toFixed1 ((reviews.map Review.rating).sum / (reviews.length : ℚ)))) ∧
    avgRating [{ id := 1, event_id := 1, user_id := 2, rating := 5, comment := "aaaaaaaaaa" },
               { id := 2, event_id := 1, user_id := 3, rating := 3, comment := "bbbbbbbbbb" },
               { id := 3, event_id := 1, user_id := 4, rating := 4, comment := "cccccccccc" }]
      = some 4 := by
  refine ⟨?_, ?_, ?_⟩
  · rintro rfl
    rfl
  · intro hne
    have hlen : 0 < reviews.length := List.length_pos.mpr hne
    simp [avgRating, hlen, foldl_add_rating]
  · simp [avgRating, foldl_add_rating, toFixed1]
    norm_num [round_eq]

/-- C6 witness: the sentinel on the empty list, and the mean formula at a
one-element list. -/
theorem avgRating_mean_rounded_witness :
    avgRating [] = none ∧
    avgRating [{ id := 1, event_id := 1, user_id := 2, rating := 5,
                 comment := "aaaaaaaaaa" }]
      = some (toFixed1 (((5:ℚ)) / 1)) := by
  have h0 := avgRating_mean_rounded []
  have h1 := avgRating_mean_rounded
    [{ id := 1, event_id := 1, user_id := 2, rating := 5, comment := "aaaaaaaaaa" }]
  refine ⟨h0.1 rfl, ?_⟩
  have := h1.2.1 (by simp)
  simpa using this

/-- C8: fetchEvents returns exactly the public events whose start_time
is not in the past, sorted ascending by start_time, and the search
filter keeps exactly the title/description/location matches as an
order-preserving sublist, so the order survives filtering. -/
theorem list_public_upcoming_events_spec (uid : Option UserId) (db : DB)
    (now : Time) (q : String) :
    (∀ e, e ∈ fetchEvents uid db now ↔
      (e ∈ db.events ∧ e.is_public = true ∧ now ≤ e.start_time)) ∧
    List.Sorted startTimeLE (fetchEvents uid db now) ∧
    (∀ e, e ∈ filteredEvents q (fetchEvents uid db now) ↔
      (e ∈ fetchEvents uid db now ∧ matchesQuery q e = true)) ∧
    (filteredEvents q (fetchEvents uid db now)).Sublist (fetchEvents uid db now) ∧
    List.Sorted startTimeLE (filteredEvents q (fetchEvents uid db now)) := by
  have hsorted : List.Sorted startTimeLE (fetchEvents uid db now) :=
    List.sorted_insertionSort _ _
  have hsub : (filteredEvents q (fetchEvents uid db now)).Sublist
      (fetchEvents uid db now) := List.filter_sublist _
  refine ⟨?_, hsorted, ?_, hsub, List.Pairwise.sublist hsub hsorted⟩
  · intro e
    rw [fetchEvents, (List.perm_insertionSort startTimeLE _).mem_iff, List.mem_filter]
    simp only [visibleEvents, List.mem_filter, canSelectEvent, Bool.or_eq_true,
      Bool.and_eq_true, beq_iff_eq, decide_eq_true_eq]
    constructor
    · rintro ⟨⟨hmem, _⟩, hpub, hstart⟩
      exact ⟨hmem, hpub, hstart⟩
    · rintro ⟨hmem, hpub, hstart⟩
      exact ⟨⟨hmem, Or.inl hpub⟩, hpub, hstart⟩
  · intro e
    rw [filteredEvents, List.mem_filter]

/-- C9: over an inclusive day range, trends yields one bucket per day in
ascending order of bucket date, bucket i counting the entities that fall
on day start_date + i, with zero-activity days present; on the range
1..3 (day numbers standing for 2024-01-01..2024-01-03) with a single
event on day 2 it returns [(1,0),(2,1),(3,0)]. -/
theorem trends_daily_buckets (s e : Nat) (days : List Nat) (h : s ≤ e) :
    (trends s e days).length = e - s + 1 ∧
    (∀ i, ∀ hi : i < (trends s e days).length,
      (trends s e days).get ⟨i, hi⟩ = (s + i, days.countP (fun d => d == s + i))) ∧
    List.Pairwise (fun a b => a.1 < b.1) (trends s e days) ∧
    trends 1 3 [2] = [(1, 0), (2, 1), (3, 0)] := by
  refine ⟨?_, ?_, ?_, by decide⟩
  · simp only [trends, List.length_map, List.length_range]
    omega
  · intro i hi
    simp only [trends] at hi ⊢
    rw [List.get_map, List.get_range]
  · rw [trends, List.pairwise_map]
    refine (List.pairwise_lt_range _).imp ?_
    intro a b hab
    simpa using hab

/-- C9 witness: the three-day instance of the bucket series. -/
theorem trends_daily_buckets_witness :
    (trends 1 3 [2]).length = 3 ∧ trends 1 3 [2] = [(1, 0), (2, 1), (3, 0)] := by
  have h := trends_daily_buckets 1 3 [2] (by decide)
  exact ⟨h.1, h.2.2.2⟩

/-- C10 counterexample: the zod review schema accepts the non-integer
rating 7/2 together with a 10-character comment, and the submission is
stored rather than rejected, so a review submission is not rejected
merely because its rating is not an integer. -/
theorem non_integer_rating_passes_validation :
    reviewSchemaValid ((7:ℚ)/2) "ten chars!" = true ∧
    ((7:ℚ)/2).den ≠ 1 ∧
    (handleSubmitReview (some 5) { events := [], rsvps := [], reviews := [] }
      1 ((7:ℚ)/2) "ten chars!" 9).1 = .submitted := by
  have hv : reviewSchemaValid ((7:ℚ)/2) "ten chars!" = true := by
    simp only [reviewSchemaValid, Bool.and_eq_true, decide_eq_true_eq]
    refine ⟨⟨⟨by norm_num, by norm_num⟩, by decide⟩, by decide⟩
  refine ⟨hv, by norm_num, ?_⟩
  simp [handleSubmitReview, hv]

/-- C10 (amended): the schema trims the comment and accepts exactly the
submissions whose trimmed comment length lies in [10, 1000] and whose
rating is a number in [1, 5] (integrality is not checked); an invalid
submission by a signed-in user is rejected as a validation error with
the state unchanged; any stored review carries the trimmed comment; and
a non-empty comment shorter than 10 characters after trimming, such as
"short", is rejected. -/
theorem review_validation_trims_and_bounds (rating : ℚ) (comment : String)
    (db : DB) (uid : UserId) (eid : EventId) (nid : Nat) :
    (reviewSchemaValid rating comment = true ↔
      (1 ≤ rating ∧ rating ≤ 5 ∧
       10 ≤ (strTrim comment).length ∧ (strTrim comment).length ≤ 1000)) ∧
    (reviewSchemaValid rating comment = false →
      handleSubmitReview (some uid) db eid rating comment nid = (.validationError, db)) ∧
    (∀ r ∈ (handleSubmitReview (some uid) db eid rating comment nid).2.reviews,
      r ∈ db.reviews ∨ r.comment = strTrim comment) ∧
    reviewSchemaValid 3 "short" = false := by
  refine ⟨?_, ?_, ?_, ?_⟩
  · simp only [reviewSchemaValid, Bool.and_eq_true, decide_eq_true_eq]
    tauto
  · intro hv
    simp [handleSubmitReview, hv]
  · intro r hr
    by_cases hv : reviewSchemaValid rating comment = true
    · by_cases hd : db.reviews.any (reviewMatches eid uid) = true
      · simp [handleSubmitReview, hv, hd] at hr
        exact Or.inl hr
      · simp [handleSubmitReview, hv, hd] at hr
        rcases hr with hr | hr
        · exact Or.inl hr
        · subst hr
          exact Or.inr rfl
    · simp [handleSubmitReview, hv] at hr
      exact Or.inl hr
  · simp [reviewSchemaValid]
    intro h35 h10
    exact absurd h10 (by decide)

/-- C10 witness: a too-short comment is rejected as a validation error
with the store unchanged. -/
theorem review_validation_trims_and_bounds_witness :
    handleSubmitReview (some 5) { events := [], rsvps := [], reviews := [] }
      1 3 "short" 9
      = (.validationError, { events := [], rsvps := [], reviews := [] }) := by
  have h := review_validation_trims_and_bounds 3 "short"
    { events := [], rsvps := [], reviews := [] } 5 1 9
  exact h.2.1 h.2.2.2
